import Mathlib

/-!
Verification development for the ssh-liberty-bridge bastion server
(main.go).  The Go source is shallowly embedded: pure helper functions
become Lean functions; network I/O and the external key-value store are
represented by explicit parameters (results of the external calls) and by
traces of the store calls the code issues.

Machine integers are modelled by Nat/Int; the Go code under study never
relies on overflow in the embedded fragments (ports are uint32 values
taken from the wire, counters are int64 redis values far from the bounds),
and the int32 range checks of strconv.ParseInt are made explicit.
-/

namespace Bridge

/-! ## Character helpers for the address and integer parsers -/

/-- Decimal digit value of an ASCII character, if it is one of 0-9. -/
def digitVal (c : Char) : Option Nat :=
  if '0' ≤ c && c ≤ '9' then some (c.toNat - 48) else none

/-- Hexadecimal digit value of an ASCII character (0-9, a-f, A-F). -/
def hexVal (c : Char) : Option Nat :=
  if '0' ≤ c && c ≤ '9' then some (c.toNat - 48)
  else if 'a' ≤ c && c ≤ 'f' then some (c.toNat - 97 + 10)
  else if 'A' ≤ c && c ≤ 'F' then some (c.toNat - 65 + 10)
  else none

/-! ## Embedding of Go net.ParseIP (which delegates to netip.ParseAddr)

An IP address is represented as its 16-byte form, the representation Go's
net.ParseIP returns for both address families (IPv4 addresses come back
as 4-in-6 mapped bytes). -/

/-- Field loop of netip's IPv4 parser: dotted decimal, exactly four
fields, each 1-3 digits, value at most 255, no leading zeros, no other
characters.  Arguments: remaining input, current field value, digits seen
in the current field, fields already completed, accumulated fields. -/
def parseV4Fields : List Char → Nat → Nat → Nat → List Nat → Option (List Nat)
  | [], val, digLen, pos, acc =>
    if digLen = 0 then none
    else if pos ≠ 3 then none
    else some (acc ++ [val])
  | c :: cs, val, digLen, pos, acc =>
    match digitVal c with
    | some d =>
      if digLen = 1 && val = 0 then none
      else
        let v := val * 10 + d
        if 255 < v then none
        else parseV4Fields cs v (digLen + 1) pos acc
    | none =>
      if c = '.' then
        if digLen = 0 then none
        else if pos = 3 then none
        else parseV4Fields cs 0 0 (pos + 1) (acc ++ [val])
      else none

/-- netip.parseIPv4: the four dotted-decimal fields of an IPv4 literal. -/
def parseIPv4 (s : List Char) : Option (List Nat) :=
  parseV4Fields s 0 0 0 []

/-- Consume a maximal run of hex digits: accumulated value, number of
digits consumed, rest of the input. -/
def takeHex : List Char → Nat → Nat → (Nat × Nat × List Char)
  | [], acc, cnt => (acc, cnt, [])
  | c :: cs, acc, cnt =>
    match hexVal c with
    | some d => takeHex cs (acc * 16 + d) (cnt + 1)
    | none => (acc, cnt, c :: cs)

/-- Post-loop handling of netip's IPv6 parser: expand a "::" run with
zeros, or require all 16 bytes to be present with no "::" marker. -/
def v6Finish (bytes : List Nat) (ellipsis : Option Nat) : Option (List Nat) :=
  if bytes.length < 16 then
    match ellipsis with
    | none => none
    | some e => some (bytes.take e ++ List.replicate (16 - bytes.length) 0 ++ bytes.drop e)
  else
    match ellipsis with
    | none => some bytes
    | some _ => none

/-- Main loop of netip's IPv6 parser.  The Go loop runs while fewer than
16 bytes are written, i.e. at most 8 rounds; the first argument counts the
remaining rounds.  A '%' zone separator is rejected outright, matching
net.ParseIP which refuses any address carrying a zone. -/
def parseV6Loop : Nat → List Char → List Nat → Option Nat → Option (List Nat)
  | 0, s, bytes, ellipsis =>
    if s = [] then v6Finish bytes ellipsis else none
  | g + 1, s, bytes, ellipsis =>
    match takeHex s 0 0 with
    | (acc, cnt, rest) =>
      if cnt = 0 then none
      else if 4 < cnt then none
      else
        match rest with
        | '.' :: _ =>
          if ellipsis = none && bytes.length ≠ 12 then none
          else if 16 < bytes.length + 4 then none
          else
            match parseIPv4 s with
            | none => none
            | some fs => v6Finish (bytes ++ fs) ellipsis
        | [] => v6Finish (bytes ++ [acc / 256, acc % 256]) ellipsis
        | ':' :: [] => none
        | ':' :: ':' :: rest2 =>
          match ellipsis with
          | some _ => none
          | none =>
            let bytes2 := bytes ++ [acc / 256, acc % 256]
            if rest2 = [] then v6Finish bytes2 (some bytes2.length)
            else parseV6Loop g rest2 bytes2 (some bytes2.length)
        | ':' :: rest2 => parseV6Loop g rest2 (bytes ++ [acc / 256, acc % 256]) ellipsis
        | _ => none

/-- netip.parseIPv6, producing the 16 address bytes. -/
def parseIPv6 (s : List Char) : Option (List Nat) :=
  match s with
  | ':' :: ':' :: rest =>
    if rest = [] then some (List.replicate 16 0)
    else parseV6Loop 8 rest [] (some 0)
  | _ => parseV6Loop 8 s [] none

/-- The 4-in-6 mapped 16-byte form net.IPv4 produces for IPv4 fields. -/
def v4InV6 (fs : List Nat) : List Nat :=
  [0, 0, 0, 0, 0, 0, 0, 0, 0, 0, 255, 255] ++ fs

/-- First of '.', ':' or '%' in the input, if any: netip.ParseAddr uses
it to choose the address family. -/
def firstSpecial : List Char → Option Char
  | [] => none
  | c :: cs => if c = '.' || c = ':' || c = '%' then some c else firstSpecial cs

/-- Go net.ParseIP: 16 address bytes on success, none for any string
that is not a bare IP literal (hostnames, host:port strings, zoned
addresses, the empty string, ...). -/
def ParseIP (s : String) : Option (List Nat) :=
  match firstSpecial s.data with
  | some '.' => (parseIPv4 s.data).map v4InV6
  | some ':' => parseIPv6 s.data
  | _ => none

/-! ## Embedding of the net.IP classification methods used by isLocalIP -/

/-- Go net.IP.To4 on a 16-byte address: the 4 IPv4 bytes when the address
is 4-in-6 mapped, none otherwise. -/
def to4 (ip : List Nat) : Option (List Nat) :=
  if ip.take 10 = List.replicate 10 0 && ip.getD 10 0 = 255 && ip.getD 11 0 = 255 then
    some (ip.drop 12)
  else none

/-- net.IP.IsLoopback: 127.0.0.0/8 for IPv4, the single address ::1
for IPv6. -/
def IsLoopback (ip : List Nat) : Bool :=
  match to4 ip with
  | some p4 => p4.getD 0 0 == 127
  | none => ip == [0, 0, 0, 0, 0, 0, 0, 0, 0, 0, 0, 0, 0, 0, 0, 1]

/-- net.IP.IsLinkLocalMulticast: 224.0.0.0/24 for IPv4; first byte 0xff
and low nibble of the second byte 0x02 for IPv6. -/
def IsLinkLocalMulticast (ip : List Nat) : Bool :=
  match to4 ip with
  | some p4 => p4.getD 0 0 == 224 && p4.getD 1 0 == 0 && p4.getD 2 0 == 0
  | none => ip.getD 0 0 == 255 && ip.getD 1 0 % 16 == 2

/-- net.IP.IsLinkLocalUnicast: 169.254.0.0/16 for IPv4, fe80::/10 for
IPv6 (first byte 0xfe, top two bits of the second byte 10). -/
def IsLinkLocalUnicast (ip : List Nat) : Bool :=
  match to4 ip with
  | some p4 => p4.getD 0 0 == 169 && p4.getD 1 0 == 254
  | none => ip.getD 0 0 == 254 && ip.getD 1 0 / 64 == 2

/-- net.IP.IsPrivate: 10.0.0.0/8, 172.16.0.0/12, 192.168.0.0/16 for
IPv4, fc00::/7 for IPv6. -/
def IsPrivate (ip : List Nat) : Bool :=
  match to4 ip with
  | some p4 =>
    p4.getD 0 0 == 10 ||
    (p4.getD 0 0 == 172 && p4.getD 1 0 / 16 == 1) ||
    (p4.getD 0 0 == 192 && p4.getD 1 0 == 168)
  | none => ip.getD 0 0 / 2 == 126

/-! ## The destination classifier and forwarding-permission callback -/

/-- main.go isLocalIP: true exactly when the string parses as an IP
address that is loopback, link-local (multicast or unicast) or private. -/
def isLocalIP (dhost : String) : Bool :=
  match ParseIP dhost with
  | none => false
  | some ip => IsLoopback ip || IsLinkLocalMulticast ip || IsLinkLocalUnicast ip || IsPrivate ip

/-- main.go containsNumber: linear membership scan of the whitelist. -/
def containsNumber : List Nat → Nat → Bool
  | [], _ => false
  | v :: vs, number => if v = number then true else containsNumber vs number

/-- The LocalPortForwardingCallback installed in main: a destination that
is NOT a local IP is always allowed; a local destination is allowed only
when its port is in the whitelist. -/
def LocalPortForwardingCallback (whitelistPorts : List Nat) (dhost : String) (dport : Nat) : Bool :=
  if !isLocalIP dhost then true
  else if containsNumber whitelistPorts dport then true
  else false

/-! ## Decimal integers: strconv.ParseInt(s, 10, 32) and the store's
decimal formatting of integer fields -/

/-- Digit-accumulation loop shared by the decimal parser. -/
def parseDigitsFrom : Nat → List Char → Option Nat
  | acc, [] => some acc
  | acc, c :: cs =>
    match digitVal c with
    | some d => parseDigitsFrom (acc * 10 + d) cs
    | none => none

/-- A non-empty all-decimal-digit string, as a number. -/
def parseDigits : List Char → Option Nat
  | [] => none
  | c :: cs => parseDigitsFrom 0 (c :: cs)

/-- Go strconv.ParseInt(s, 10, 32): optional single sign, non-empty run
of decimal digits, value within the int32 range.  All error outcomes
(syntax and range) are collapsed to none, which is how the Go code under
study consumes them (it only ever branches on err == nil). -/
def goParseInt32 (s : String) : Option Int :=
  match s.data with
  | [] => none
  | c :: cs =>
    let signDigits : Bool × List Char :=
      if c = '+' then (false, cs)
      else if c = '-' then (true, cs)
      else (false, c :: cs)
    match parseDigits signDigits.2 with
    | none => none
    | some un =>
      if signDigits.1 then
        if (un : Int) ≤ 2 ^ 31 then some (-(un : Int)) else none
      else
        if (un : Int) < 2 ^ 31 then some (un : Int) else none

/-- Digit-emission loop for decimal rendering, driven by a fuel counter
so that it is structurally recursive; n + 1 units of fuel always
suffice. -/
def natDecCore : Nat → Nat → List Char
  | 0, _ => []
  | fuel + 1, n =>
    if n < 10 then [Char.ofNat (48 + n)]
    else natDecCore fuel (n / 10) ++ [Char.ofNat (48 + n % 10)]

/-- Decimal digits of a natural number, most significant first.
Modelled from the spec: the external store renders stored integer fields
in standard decimal notation when they are read back. -/
def natDec (n : Nat) : List Char :=
  natDecCore (n + 1) n

/-- Decimal rendering of an integer store field (sign then digits). -/
def intDec (v : Int) : String :=
  if v < 0 then "-" ++ String.mk (natDec v.natAbs) else String.mk (natDec v.toNat)

/-! ## strings.Trim with a cutset, as used for key canonicalisation and
for the mimicked banner -/

/-- Drop the longest run of cutset characters from the front. -/
def trimLeftChars (cutset : List Char) (l : List Char) : List Char :=
  l.dropWhile (fun c => cutset.contains c)

/-- Go strings.Trim: remove cutset characters from both ends. -/
def goTrim (s : String) (cutset : List Char) : String :=
  String.mk (trimLeftChars cutset (trimLeftChars cutset s.data.reverse).reverse)

/-! ## The admission controller (PublicKeyHandler) -/

/-- One call issued against the external store, in issue order. -/
inductive StoreCall : Type
  | sIsMember (key member : String)
  | hGet (key field : String)
  | hIncrBy (key field : String) (delta : Int)
deriving DecidableEq

/-- Results the external store and session context hand back to one run
of the handler: the membership answer (or a store error), whether the
session's done channel was nil, the string read back for the connection
counter (empty when the field is absent or the read errored, which is how
the ignored error case surfaces), and whether the increment errored. -/
structure StoreEnv where
  memberRes : Except Unit Bool
  doneChNil : Bool
  hgetRes : String
  hincrErr : Bool

/-- main.go PublicKeyHandler: the admission decision together with the
trace of store calls the attempt issues.  The identity-format gate uses
the byte length of the user string, as Go's len does. -/
def PublicKeyHandler (maxConns : Int) (user marshalledKey : String) (env : StoreEnv) :
    Bool × List StoreCall :=
  if user.utf8ByteSize ≠ 36 then (false, [])
  else
    let userString := goTrim (user ++ "::" ++ marshalledKey) ['\n', '\t', '\r']
    let calls0 := [StoreCall.sIsMember "ssh-server:users" userString]
    match env.memberRes with
    | Except.error _ => (false, calls0)
    | Except.ok res =>
      if !res || env.doneChNil then (false, calls0)
      else
        let calls1 := calls0 ++ [StoreCall.hGet "ssh-server:connections" user]
        let quotaHit : Bool :=
          match goParseInt32 env.hgetRes with
          | some connCnt => decide (maxConns ≤ connCnt)
          | none => false
        if quotaHit then (false, calls1)
        else
          let calls2 := calls1 ++ [StoreCall.hIncrBy "ssh-server:connections" user 1]
          if env.hincrErr then (false, calls2)
          else (true, calls2)

/-! ## Serialized admission rounds over the connection counter

The quota read and increment sit inside one process-wide mutex, so any
set of concurrent attempts executes as some sequence of atomic rounds;
the model below is that sequential semantics for one identity.  The
connection-counter field is an integer maintained by the store's atomic
increment; reading it back yields its decimal rendering (empty when the
field does not exist yet). -/

/-- What HGet returns for the connection-counter field in a given state. -/
def connectionsField (st : Option Int) : String :=
  match st with
  | none => ""
  | some v => intDec v

/-- Effect of one store call on the connection-counter field (the store's
HIncrBy creates an absent field as zero, then adds the delta). -/
def applyConnCall (st : Option Int) (c : StoreCall) : Option Int :=
  match c with
  | StoreCall.hIncrBy k _ d => if k = "ssh-server:connections" then some (st.getD 0 + d) else st
  | _ => st

/-- One serialized admission attempt by an authorized identity (the
membership answer is yes, the done channel exists, the increment
succeeds): the decision, and the counter state after the attempt's store
calls are applied. -/
def admissionAttempt (maxConns : Int) (user marshalledKey : String) (st : Option Int) :
    Bool × Option Int :=
  let out := PublicKeyHandler maxConns user marshalledKey
    ⟨Except.ok true, false, connectionsField st, false⟩
  (out.1, out.2.foldl applyConnCall st)

/-- n serialized admission attempts: how many were admitted, and the
final counter state. -/
def admissionRun (maxConns : Int) (user marshalledKey : String) : Nat → Option Int → Nat × Option Int
  | 0, st => (0, st)
  | n + 1, st =>
    let step := admissionAttempt maxConns user marshalledKey st
    let rest := admissionRun maxConns user marshalledKey n step.2
    ((if step.1 then 1 else 0) + rest.1, rest.2)

/-! ## The forwarding engine (directTCPIPClosure) -/

/-- The direct-tcpip channel payload (main.go localForwardChannelData). -/
structure localForwardChannelData where
  DestAddr : String
  DestPort : Nat
  OriginAddr : String
  OriginPort : Nat
deriving DecidableEq

/-- What the channel handler decides to do with a request, up to the
first network dial: one of the three rejections, or a dial attempt that
is either proxied or direct. -/
inductive ChannelAction : Type
  | rejectParseErr (msg : String)
  | rejectResolve (msg : String)
  | rejectIllegal
  | dialProxy (proxyAddr dest : String)
  | dialDirect (dest : String)
deriving DecidableEq

/-- ResolveIPAddr preference in the handler: the ip4 resolution when it
succeeded, otherwise the ip6 resolution.  Both resolutions are external
(DNS) and enter the model as parameters. -/
def resolveIPAddr (resolve4 resolve6 : Option String) : Option String :=
  match resolve4 with
  | some a => some a
  | none => resolve6

/-- Go net.JoinHostPort: brackets the host when it holds a colon. -/
def joinHostPort (host port : String) : String :=
  if host.data.contains ':' then "[" ++ host ++ "]:" ++ port else host ++ ":" ++ port

/-- The pure decision core of main.go's direct-tcpip handler: unmarshal
(outcome passed in as payload), resolve (outcomes passed in), consult the
forwarding callback, then choose the dial mode.  The server always
installs the callback, so the nil-callback disjunct of the source is
constantly false and drops out. -/
def directTCPIPDecision (socksProxyAddr : String) (whitelistPorts : List Nat)
    (payload : Option localForwardChannelData) (resolve4 resolve6 : Option String) :
    ChannelAction :=
  match payload with
  | none => ChannelAction.rejectParseErr "error parsing forward data"
  | some d =>
    match resolveIPAddr resolve4 resolve6 with
    | none => ChannelAction.rejectResolve ("cannot resolve the said address: " ++ d.DestAddr)
    | some ipStr =>
      if !LocalPortForwardingCallback whitelistPorts ipStr d.DestPort then
        ChannelAction.rejectIllegal
      else
        let dest := joinHostPort ipStr (String.mk (natDec d.DestPort))
        if (socksProxyAddr.utf8ByteSize != 0) && !isLocalIP dest then
          ChannelAction.dialProxy socksProxyAddr dest
        else ChannelAction.dialDirect dest

/-! ## Relay accounting -/

/-- The store calls one relay-direction task issues when its copy
returns: a single usage increment by the bytes that direction copied.
io.Copy reports the number of bytes written before EOF or error, which is
never negative; the Nat type records that contract. -/
def relayFinishCalls (userID : String) (copied : Nat) : List StoreCall :=
  [StoreCall.hIncrBy "ssh-server:users-usage" userID (copied : Int)]

/-- Effect of one store call on one identity's usage counter. -/
def applyUsageCall (userID : String) (usage : Int) (c : StoreCall) : Int :=
  match c with
  | StoreCall.hIncrBy k f d => if k = "ssh-server:users-usage" ∧ f = userID then usage + d else usage
  | _ => usage

/-- Fold a trace of store calls over one identity's usage counter. -/
def applyUsage (userID : String) (usage : Int) (calls : List StoreCall) : Int :=
  calls.foldl (applyUsageCall userID) usage

/-! ## The version mimicry step -/

/-- Truncate the read buffer at its first null byte (the source's
trailing-zero removal loop scans the whole buffer and stops at the first
zero). -/
def takeUntilNul : List Char → List Char
  | [] => []
  | c :: cs => if c = '\x00' then [] else c :: takeUntilNul cs

/-- One cycle of the mimicry loop after a read returning n bytes into a
buffer holding buf: the advertised banner after the cycle, given the
banner current before it.  A read error or a full buffer leaves the
banner alone; otherwise the buffer is truncated at the first null,
trimmed, required to carry the standard version marker, and the marker is
stripped. -/
def processVersionResponse (readErr : Bool) (n : Nat) (buf : List Char) (current : String) :
    String :=
  if readErr || (n == buf.length) then current
  else
    let result := goTrim (String.mk (takeUntilNul buf)) ['\n', '\t', '\r']
    if !(List.isPrefixOf ("SSH-2.0-").data result.data) then current
    else String.mk (result.data.drop 8)

/-! ## Lemmas about the embedded helpers -/

theorem containsNumber_eq_true_iff (l : List Nat) (n : Nat) :
    containsNumber l n = true ↔ n ∈ l := by
  induction l with
  | nil => simp [containsNumber]
  | cons v vs ih =>
    by_cases h : v = n
    · simp [containsNumber, h]
    · rw [containsNumber, if_neg h, ih]
      simp [List.mem_cons]
      intro hn
      exact absurd hn.symm h

theorem natDecCore_congr :
    ∀ f1 f2 n, n < f1 → n < f2 → natDecCore f1 n = natDecCore f2 n := by
  intro f1
  induction f1 with
  | zero => intro f2 n h _; omega
  | succ f ih =>
    intro f2 n h1 h2
    cases f2 with
    | zero => omega
    | succ f2h =>
      rw [natDecCore, natDecCore]
      by_cases h : n < 10
      · simp [h]
      · rw [if_neg h, if_neg h]
        rw [ih f2h (n / 10) (by omega) (by omega)]

theorem natDec_eq (n : Nat) :
    natDec n =
      if n < 10 then [Char.ofNat (48 + n)]
      else natDec (n / 10) ++ [Char.ofNat (48 + n % 10)] := by
  rw [natDec, natDecCore]
  by_cases h : n < 10
  · simp [h]
  · rw [if_neg h, if_neg h, natDec]
    rw [natDecCore_congr n (n / 10 + 1) (n / 10) (by omega) (by omega)]

theorem natDec_head (n : Nat) :
    ∃ d ds, d < 10 ∧ natDec n = Char.ofNat (48 + d) :: ds := by
  induction n using Nat.strong_induction_on with
  | _ n ih =>
    rw [natDec_eq]
    by_cases h : n < 10
    · rw [if_pos h]
      exact ⟨n, [], h, rfl⟩
    · rw [if_neg h]
      obtain ⟨d, ds, hd, hds⟩ := ih (n / 10) (Nat.div_lt_self (by omega) (by omega))
      exact ⟨d, ds ++ [Char.ofNat (48 + n % 10)], hd, by rw [hds]; rfl⟩

theorem digitVal_ofNat (d : Nat) (h : d < 10) :
    digitVal (Char.ofNat (48 + d)) = some d := by
  interval_cases d <;> decide

theorem digitChar_ne_plus (d : Nat) (h : d < 10) : Char.ofNat (48 + d) ≠ '+' := by
  interval_cases d <;> decide

theorem digitChar_ne_minus (d : Nat) (h : d < 10) : Char.ofNat (48 + d) ≠ '-' := by
  interval_cases d <;> decide

theorem parseDigitsFrom_append (xs ys : List Char) :
    ∀ acc, parseDigitsFrom acc (xs ++ ys) =
      match parseDigitsFrom acc xs with
      | some v => parseDigitsFrom v ys
      | none => none := by
  induction xs with
  | nil => intro acc; rfl
  | cons c cs ih =>
    intro acc
    cases hd : digitVal c with
    | some d =>
      show parseDigitsFrom acc (c :: (cs ++ ys)) = _
      simp only [parseDigitsFrom, hd, ih]
    | none =>
      show parseDigitsFrom acc (c :: (cs ++ ys)) = _
      simp only [parseDigitsFrom, hd]

theorem parseDigitsFrom_natDec (n : Nat) :
    ∀ acc, ∃ k, parseDigitsFrom acc (natDec n) = some (acc * 10 ^ k + n) := by
  induction n using Nat.strong_induction_on with
  | _ n ih =>
    intro acc
    rw [natDec_eq]
    by_cases h : n < 10
    · rw [if_pos h]
      refine ⟨1, ?_⟩
      simp only [parseDigitsFrom, digitVal_ofNat n h]
      norm_num
    · rw [if_neg h]
      obtain ⟨k, hk⟩ := ih (n / 10) (Nat.div_lt_self (by omega) (by omega)) acc
      rw [parseDigitsFrom_append, hk]
      refine ⟨k + 1, ?_⟩
      simp only [parseDigitsFrom, digitVal_ofNat (n % 10) (Nat.mod_lt _ (by omega))]
      rw [Option.some.injEq]
      rw [pow_succ, ← mul_assoc]
      generalize acc * 10 ^ k = B
      omega

theorem natDec_ne_nil (n : Nat) : natDec n ≠ [] := by
  obtain ⟨d, ds, _, hds⟩ := natDec_head n
  simp [hds]

theorem parseDigits_natDec (n : Nat) : parseDigits (natDec n) = some n := by
  obtain ⟨d, ds, _, hds⟩ := natDec_head n
  obtain ⟨k, hk⟩ := parseDigitsFrom_natDec n 0
  rw [hds] at hk ⊢
  rw [parseDigits]
  simpa using hk

theorem goParseInt32_intDec (v : Int) (h1 : -(2 ^ 31) ≤ v) (h2 : v ≤ 2 ^ 31 - 1) :
    goParseInt32 (intDec v) = some v := by
  by_cases hv : v < 0
  · rw [intDec, if_pos hv]
    have hdata : ("-" ++ String.mk (natDec v.natAbs)).data = '-' :: natDec v.natAbs := rfl
    rw [goParseInt32, hdata]
    have habs : (v.natAbs : Int) ≤ 2 ^ 31 := by omega
    have hpm : ¬ (('-' : Char) = '+') := by decide
    simp [hpm, parseDigits_natDec, habs]
    rw [abs_of_neg hv]
    omega
  · rw [intDec, if_neg hv]
    obtain ⟨d, ds, hd, hds⟩ := natDec_head v.toNat
    have hdata : (String.mk (natDec v.toNat)).data = natDec v.toNat := rfl
    rw [goParseInt32, hdata, hds]
    have hparse : parseDigits (Char.ofNat (48 + d) :: ds) = some v.toNat := by
      rw [← hds]; exact parseDigits_natDec v.toNat
    have hlt : (v.toNat : Int) < 2 ^ 31 := by omega
    simp [digitChar_ne_plus d hd, digitChar_ne_minus d hd, hparse, hlt]
    omega

/-! ## Facts feeding the admission claims -/

theorem admissionAttempt_admits (maxConns c : Int) (user key : String)
    (h36 : user.utf8ByteSize = 36)
    (hr1 : -(2 ^ 31) ≤ c) (hr2 : c ≤ 2 ^ 31 - 1) (hlt : c < maxConns) :
    admissionAttempt maxConns user key (some c) = (true, some (c + 1)) := by
  have hparse : goParseInt32 (connectionsField (some c)) = some c := by
    rw [connectionsField]
    exact goParseInt32_intDec c hr1 hr2
  have hq : ¬ (maxConns ≤ c) := not_le.mpr hlt
  have hPK : PublicKeyHandler maxConns user key
      ⟨Except.ok true, false, connectionsField (some c), false⟩ =
      (true, [StoreCall.sIsMember "ssh-server:users" (goTrim (user ++ "::" ++ key) ['\n', '\t', '\r']),
              StoreCall.hGet "ssh-server:connections" user,
              StoreCall.hIncrBy "ssh-server:connections" user 1]) := by
    simp [PublicKeyHandler, h36, hparse, hq]
  rw [admissionAttempt, hPK]
  simp [applyConnCall]

theorem admissionAttempt_denies (maxConns c : Int) (user key : String)
    (h36 : user.utf8ByteSize = 36)
    (hr1 : -(2 ^ 31) ≤ c) (hr2 : c ≤ 2 ^ 31 - 1) (hge : maxConns ≤ c) :
    admissionAttempt maxConns user key (some c) = (false, some c) := by
  have hparse : goParseInt32 (connectionsField (some c)) = some c := by
    rw [connectionsField]
    exact goParseInt32_intDec c hr1 hr2
  have hPK : PublicKeyHandler maxConns user key
      ⟨Except.ok true, false, connectionsField (some c), false⟩ =
      (false, [StoreCall.sIsMember "ssh-server:users" (goTrim (user ++ "::" ++ key) ['\n', '\t', '\r']),
               StoreCall.hGet "ssh-server:connections" user]) := by
    simp [PublicKeyHandler, h36, hparse, hge]
  rw [admissionAttempt, hPK]
  simp [applyConnCall]

theorem admissionRun_atLimit (maxConns : Int) (user key : String)
    (h36 : user.utf8ByteSize = 36)
    (hr1 : -(2 ^ 31) ≤ maxConns) (hr2 : maxConns ≤ 2 ^ 31 - 1) :
    ∀ n, admissionRun maxConns user key n (some maxConns) = (0, some maxConns) := by
  intro n
  induction n with
  | zero => rfl
  | succ m ih =>
    rw [admissionRun, admissionAttempt_denies maxConns maxConns user key h36 hr1 hr2 le_rfl]
    simpa using ih

/-! ## The claims -/

/-- Claim C4: an identity string whose byte length is not 36 is denied by
the public-key callback, and the attempt issues no store call at all. -/
theorem claimC4_theorem (maxConns : Int) (user key : String) (env : StoreEnv)
    (h : user.utf8ByteSize ≠ 36) :
    PublicKeyHandler maxConns user key env = (false, []) := by
  rw [PublicKeyHandler, if_pos h]

/-- Claim C4 witness: the handler at the concrete identity "root". -/
theorem claimC4_witness :
    PublicKeyHandler 5 "root" "ssh-ed25519 AAAA" ⟨Except.ok true, false, "", false⟩ =
      (false, []) :=
  claimC4_theorem 5 "root" "ssh-ed25519 AAAA" ⟨Except.ok true, false, "", false⟩ (by decide)

/-- Claim C5: whenever the stored connection counter reads back as a
string that parses to an integer at least the configured maximum, the
admission attempt is denied and its store-call trace holds no increment
whatsoever (this holds on every branch of the handler). -/
theorem claimC5_theorem (maxConns c : Int) (user key : String) (env : StoreEnv)
    (hc : goParseInt32 env.hgetRes = some c) (hq : maxConns ≤ c) :
    (PublicKeyHandler maxConns user key env).1 = false ∧
    ∀ k f d, StoreCall.hIncrBy k f d ∉ (PublicKeyHandler maxConns user key env).2 := by
  obtain ⟨mr, dn, hg, hi⟩ := env
  simp only at hc
  by_cases h36 : user.utf8ByteSize ≠ 36
  · simp [PublicKeyHandler, h36]
  · cases mr with
    | error e => simp [PublicKeyHandler, h36]
    | ok res =>
      cases res
      · simp [PublicKeyHandler, h36]
      · cases dn
        · simp [PublicKeyHandler, h36, hc, hq]
        · simp [PublicKeyHandler, h36]

/-- Claim C5 witness: counter "5" at maximum 5 denies and the trace holds
only the membership and read calls. -/
theorem claimC5_witness :
    (PublicKeyHandler 5 "11111111-1111-1111-1111-111111111111" "ssh-ed25519 AAAA"
        ⟨Except.ok true, false, "5", false⟩).1 = false ∧
    ∀ k f d, StoreCall.hIncrBy k f d ∉
      (PublicKeyHandler 5 "11111111-1111-1111-1111-111111111111" "ssh-ed25519 AAAA"
        ⟨Except.ok true, false, "5", false⟩).2 :=
  claimC5_theorem 5 5 "11111111-1111-1111-1111-111111111111" "ssh-ed25519 AAAA"
    ⟨Except.ok true, false, "5", false⟩ (by decide) (by decide)

/-- Claim C7: when the stored counter value does not parse as an integer,
the quota gate is skipped: the attempt still increments the counter and
is admitted exactly when the increment succeeds (fail-open). -/
theorem claimC7_theorem (maxConns : Int) (user key hgetRes : String) (hincrErr : Bool)
    (h36 : user.utf8ByteSize = 36) (hc : goParseInt32 hgetRes = none) :
    PublicKeyHandler maxConns user key ⟨Except.ok true, false, hgetRes, hincrErr⟩ =
      (!hincrErr,
       [StoreCall.sIsMember "ssh-server:users" (goTrim (user ++ "::" ++ key) ['\n', '\t', '\r']),
        StoreCall.hGet "ssh-server:connections" user,
        StoreCall.hIncrBy "ssh-server:connections" user 1]) := by
  cases hincrErr <;> simp [PublicKeyHandler, h36, hc]

/-- Claim C7 witness: the unparseable counter value "garbage" still leads
to an admitted attempt with the increment in the trace. -/
theorem claimC7_witness :
    PublicKeyHandler 5 "11111111-1111-1111-1111-111111111111" "ssh-ed25519 AAAA"
        ⟨Except.ok true, false, "garbage", false⟩ =
      (true,
       [StoreCall.sIsMember "ssh-server:users"
          (goTrim ("11111111-1111-1111-1111-111111111111" ++ "::" ++ "ssh-ed25519 AAAA")
            ['\n', '\t', '\r']),
        StoreCall.hGet "ssh-server:connections" "11111111-1111-1111-1111-111111111111",
        StoreCall.hIncrBy "ssh-server:connections" "11111111-1111-1111-1111-111111111111" 1]) :=
  claimC7_theorem 5 "11111111-1111-1111-1111-111111111111" "ssh-ed25519 AAAA" "garbage" false
    (by decide) (by decide)

/-- Claim C6: the quota read and increment run inside one process-wide
mutex, so concurrent attempts execute as some serial order of atomic
rounds; for any number N ≥ 1 of serialized attempts by one authorized
identity starting at counter limit - 1, exactly one attempt is admitted
and the counter ends exactly at the limit. -/
theorem claimC6_theorem (maxConns : Int) (user key : String) (N : Nat)
    (h36 : user.utf8ByteSize = 36) (hN : 1 ≤ N)
    (h1 : -(2 ^ 31) ≤ maxConns - 1) (h2 : maxConns ≤ 2 ^ 31 - 1) :
    admissionRun maxConns user key N (some (maxConns - 1)) = (1, some maxConns) := by
  obtain ⟨m, rfl⟩ : ∃ m, N = m + 1 := ⟨N - 1, by omega⟩
  rw [admissionRun]
  rw [admissionAttempt_admits maxConns (maxConns - 1) user key h36 h1 (by omega) (by omega)]
  have hstep : maxConns - 1 + 1 = maxConns := by omega
  simp only [hstep]
  simp [admissionRun_atLimit maxConns user key h36 (by omega) h2]

/-- Claim C6 witness: three serialized attempts at counter 4 with limit 5
admit exactly one and leave the counter at 5. -/
theorem claimC6_witness :
    admissionRun 5 "11111111-1111-1111-1111-111111111111" "ssh-ed25519 AAAA" 3 (some 4) =
      (1, some 5) := by
  have h := claimC6_theorem 5 "11111111-1111-1111-1111-111111111111" "ssh-ed25519 AAAA" 3
    (by decide) (by decide) (by decide) (by decide)
  norm_num at h
  exact h

/-- Claim C1 counterexample: 127.0.0.1 is classified local, yet with an
empty whitelist the forwarding-permission callback denies it, refuting
"local destinations are always permitted regardless of the whitelist". -/
theorem claimC1_counterexample :
    isLocalIP "127.0.0.1" = true ∧ LocalPortForwardingCallback [] "127.0.0.1" 80 = false :=
  ⟨rfl, rfl⟩

/-- Claim C1 (amended): the callback permits a destination classified as
local exactly when the destination port is in the configured whitelist,
and permits every destination classified as non-local unconditionally. -/
theorem claimC1_theorem (whitelistPorts : List Nat) (dhost : String) (dport : Nat) :
    (isLocalIP dhost = true →
      (LocalPortForwardingCallback whitelistPorts dhost dport = true ↔ dport ∈ whitelistPorts)) ∧
    (isLocalIP dhost = false → LocalPortForwardingCallback whitelistPorts dhost dport = true) := by
  constructor
  · intro hl
    rw [LocalPortForwardingCallback]
    simp [hl, containsNumber_eq_true_iff]
  · intro hl
    simp [LocalPortForwardingCallback, hl]

/-- Claim C1 witness: a public destination passes with an empty
whitelist; a loopback destination passes when its port is whitelisted. -/
theorem claimC1_witness :
    LocalPortForwardingCallback [] "8.8.8.8" 80 = true ∧
    LocalPortForwardingCallback [6379] "127.0.0.1" 6379 = true :=
  ⟨(claimC1_theorem [] "8.8.8.8" 80).2 rfl,
   ((claimC1_theorem [6379] "127.0.0.1" 6379).1 rfl).mpr (by simp)⟩

/-- Claim C2 counterexample: a request to 8.8.8.8:80, non-local with an
empty whitelist, is not rejected: the handler proceeds to a direct dial,
refuting "non-local and not whitelisted is rejected before any dial". -/
theorem claimC2_counterexample :
    isLocalIP "8.8.8.8" = false ∧ containsNumber [] 80 = false ∧
    directTCPIPDecision "" [] (some ⟨"8.8.8.8", 80, "example.org", 44444⟩) (some "8.8.8.8") none =
      ChannelAction.dialDirect "8.8.8.8:80" :=
  ⟨rfl, rfl, rfl⟩

/-- Claim C2 (amended): a channel-open request whose resolved destination
IP is classified as local and whose port is not in the whitelist is
rejected with the "illegal address" reason, and no dial (direct or
proxied) is attempted. -/
theorem claimC2_theorem (socksProxyAddr : String) (whitelistPorts : List Nat)
    (d : localForwardChannelData) (resolve4 resolve6 : Option String) (ip : String)
    (hres : resolveIPAddr resolve4 resolve6 = some ip)
    (hl : isLocalIP ip = true)
    (hw : containsNumber whitelistPorts d.DestPort = false) :
    directTCPIPDecision socksProxyAddr whitelistPorts (some d) resolve4 resolve6 =
      ChannelAction.rejectIllegal := by
  simp [directTCPIPDecision, hres, LocalPortForwardingCallback, hl, hw]

/-- Claim C2 witness: loopback destination, empty whitelist: the channel
decision is the illegal-address rejection. -/
theorem claimC2_witness :
    directTCPIPDecision "" [] (some ⟨"localhost", 80, "example.org", 44444⟩)
        (some "127.0.0.1") none = ChannelAction.rejectIllegal :=
  claimC2_theorem "" [] ⟨"localhost", 80, "example.org", 44444⟩ (some "127.0.0.1") none
    "127.0.0.1" rfl rfl rfl

/-- Claim C3: the locality test guarding the proxy decision is applied to
the joined "host:port" string, which never parses as an IP, so a
permitted forward to the loopback destination 127.0.0.1:6379 is dialed
through the configured SOCKS proxy even though the destination is
classified local - contradicting the intended "local destinations dial
directly". -/
theorem claimC3_theorem :
    isLocalIP "127.0.0.1" = true ∧
    isLocalIP "127.0.0.1:6379" = false ∧
    directTCPIPDecision "proxy.example.com:1080" [6379]
        (some ⟨"localhost", 6379, "example.org", 44444⟩) (some "127.0.0.1") none =
      ChannelAction.dialProxy "proxy.example.com:1080" "127.0.0.1:6379" :=
  ⟨rfl, rfl, rfl⟩

set_option maxRecDepth 4000 in
/-- Claim C8: a reference response "SSH-2.0-OpenSSH_9.6\r\n" padded with
nulls to the 256-byte read buffer yields the banner "OpenSSH_9.6";
whenever the null-truncated, trimmed response does not start with the
standard "SSH-2.0-" marker, the banner is left unchanged. -/
theorem claimC8_theorem :
    (∀ current, processVersionResponse false 21
        (("SSH-2.0-OpenSSH_9.6\r\n").data ++ List.replicate 235 '\x00') current =
      "OpenSSH_9.6") ∧
    (∀ readErr n buf current,
      List.isPrefixOf ("SSH-2.0-").data
          (goTrim (String.mk (takeUntilNul buf)) ['\n', '\t', '\r']).data = false →
      processVersionResponse readErr n buf current = current) := by
  constructor
  · intro current
    rfl
  · intro readErr n buf current h
    rw [processVersionResponse]
    by_cases hcond : (readErr || (n == buf.length)) = true
    · rw [if_pos hcond]
    · rw [if_neg hcond]
      simp [h]

set_option maxRecDepth 4000 in
/-- Claim C8 witness: an HTTP response padded with nulls leaves the
banner untouched. -/
theorem claimC8_witness :
    processVersionResponse false 12 (("HTTP/1.1 400").data ++ List.replicate 244 '\x00')
      "prior" = "prior" :=
  claimC8_theorem.2 false 12 (("HTTP/1.1 400").data ++ List.replicate 244 '\x00') "prior"
    (by decide)

/-! ## Relay accounting facts -/

theorem applyUsage_append (userID : String) (usage : Int) (xs ys : List StoreCall) :
    applyUsage userID usage (xs ++ ys) = applyUsage userID (applyUsage userID usage xs) ys := by
  simp [applyUsage, List.foldl_append]

theorem applyUsage_relay (userID : String) (usage : Int) (finishes : List Nat) :
    applyUsage userID usage (finishes.flatMap (relayFinishCalls userID)) =
      usage + (finishes.map fun c => (c : Int)).sum := by
  induction finishes generalizing usage with
  | nil => simp [applyUsage]
  | cons c cs ih =>
    show applyUsage userID usage
        (relayFinishCalls userID c ++ cs.flatMap (relayFinishCalls userID)) = _
    rw [applyUsage_append]
    have h1 : applyUsage userID usage (relayFinishCalls userID c) = usage + (c : Int) := by
      simp [applyUsage, relayFinishCalls, applyUsageCall]
    rw [h1, ih]
    simp [add_assoc]

/-- Claim C9: one relay-direction task ending its copy issues exactly one
usage increment, whose delta is the non-negative byte count that
direction copied; folding any collection of relay completions over an
identity's usage counter adds exactly the sum of the copied byte counts,
so the counter never decreases. -/
theorem claimC9_theorem (userID : String) :
    (∀ copied : Nat,
      relayFinishCalls userID copied =
        [StoreCall.hIncrBy "ssh-server:users-usage" userID (copied : Int)] ∧
      (0 : Int) ≤ (copied : Int)) ∧
    (∀ (usage : Int) (finishes : List Nat),
      applyUsage userID usage (finishes.flatMap (relayFinishCalls userID)) =
        usage + (finishes.map fun c => (c : Int)).sum ∧
      usage ≤ applyUsage userID usage (finishes.flatMap (relayFinishCalls userID))) := by
  refine ⟨fun copied => ⟨rfl, Int.natCast_nonneg copied⟩, fun usage finishes => ?_⟩
  have h := applyUsage_relay userID usage finishes
  refine ⟨h, ?_⟩
  rw [h]
  have hsum : (0 : Int) ≤ (finishes.map fun c => (c : Int)).sum := by
    apply List.sum_nonneg
    intro x hx
    simp at hx
    obtain ⟨c, _, rfl⟩ := hx
    exact Int.natCast_nonneg c
  omega

/-- Claim C10: any string the IP parser rejects - hostnames, host:port
strings, anything that is not a bare IP literal - is classified
non-local by isLocalIP. -/
theorem claimC10_theorem (s : String) (h : ParseIP s = none) : isLocalIP s = false := by
  simp [isLocalIP, h]

/-- Claim C10 witness: a hostname and a host:port string both fail to
parse and are classified non-local. -/
theorem claimC10_witness :
    (ParseIP "example.com" = none ∧ isLocalIP "example.com" = false) ∧
    (ParseIP "127.0.0.1:80" = none ∧ isLocalIP "127.0.0.1:80" = false) :=
  ⟨⟨rfl, claimC10_theorem "example.com" rfl⟩, ⟨rfl, claimC10_theorem "127.0.0.1:80" rfl⟩⟩

end Bridge
